import Mathlib

/-!
Verification of the dependency-tracking and invalidation engine of this
repository (the DependencyNotifyingDomFacade and XPathInvalidator classes).

The embedding is shallow: DOM nodes and components are natural-number
handles, the external DOM tree is a structure of pure functions, JS Map
and Set instances become association lists and duplicate-free lists with
the same observable operations, and each source method becomes a Lean
function that mirrors its body statement by statement.  Fallible JS code
(a thrown TypeError, an exception escaping a callback) is modelled with
an explicit error component in the result.
-/

/-- Opaque handle to a DOM node.  The engine only uses node identity. -/
abbrev DomNode := Nat

/-- Opaque handle to a consumer component. -/
abbrev Component := Nat

/-- A JavaScript runtime error.  `typeError` carries the message of the
TypeError the runtime would raise; `thrownByCallback` stands for an
arbitrary exception escaping a user callback. -/
inductive JsError
  | typeError (message : String)
  | thrownByCallback
deriving DecidableEq

/-- The external mutable DOM tree, as the facade reads it.  All fields are
total functions on node handles.  `bucketsOf` models the external pure
classifier getBucketsForNode imported from fontoxpath: it returns the list
of bucket names (plain strings) matching a node. -/
structure DomTree where
  parentNode : DomNode → Option DomNode
  childNodes : DomNode → List DomNode
  attributes : DomNode → List (String × String)
  nodeValue : DomNode → String
  nodeData : DomNode → String
  nodeType : DomNode → Nat
  documentElement : DomNode → DomNode
  bucketsOf : DomNode → List String

/-- DOM nodeType constant Node.ATTRIBUTE_NODE. -/
def nodeTypeATTRIBUTE : Nat := 2

/-- DOM nodeType constant Node.DOCUMENT_NODE. -/
def nodeTypeDOCUMENT : Nat := 9

/-- The elements of `l` strictly after the first occurrence of `n`. -/
def afterIn : List DomNode → DomNode → List DomNode
  | [], _ => []
  | x :: xs, n => if x = n then xs else afterIn xs n

/-- The elements of `l` strictly before the first occurrence of `n`. -/
def beforeIn : List DomNode → DomNode → List DomNode
  | [], _ => []
  | x :: xs, n => if x = n then [] else x :: beforeIn xs n

/-- The following siblings of `n`, in document order (DOM: the chain
node.nextSibling, node.nextSibling.nextSibling, ...).  A node without a
parent has no siblings. -/
def DomTree.siblingsAfter (t : DomTree) (n : DomNode) : List DomNode :=
  match t.parentNode n with
  | none => []
  | some p => afterIn (t.childNodes p) n

/-- The preceding siblings of `n`, nearest first (DOM: the chain
node.previousSibling, node.previousSibling.previousSibling, ...). -/
def DomTree.siblingsBefore (t : DomTree) (n : DomNode) : List DomNode :=
  match t.parentNode n with
  | none => []
  | some p => (beforeIn (t.childNodes p) n).reverse

/-- Raw DOM read node.nextSibling. -/
def DomTree.nextSiblingRaw (t : DomTree) (n : DomNode) : Option DomNode :=
  (t.siblingsAfter n).head?

/-- Raw DOM read node.previousSibling. -/
def DomTree.previousSiblingRaw (t : DomTree) (n : DomNode) : Option DomNode :=
  (t.siblingsBefore n).head?

/-- The test `!bucket || getBucketsForNode(node).includes(bucket)` used by
getChildNodes, getFirstChild and getNextSibling: an absent bucket matches
everything. -/
def bucketMatch (buckets : List String) : Option String → Bool
  | none => true
  | some b => buckets.contains b

/-- The bare JS call `getBucketsForNode(node).includes(bucket)` where
`bucket` may be undefined.  Array.prototype.includes over an array of
strings never finds undefined, so an absent bucket yields false.  (This is
exactly the call getPreviousSibling performs, with no `bucket &&` guard.) -/
def jsIncludes (buckets : List String) : Option String → Bool
  | none => false
  | some b => buckets.contains b

/-!
DependencyNotifyingDomFacade.

Each method returns the pair (touches recorded by this call, value
returned to the caller).  The touch list is what the `onNodeTouched`
callback receives, in call order, before the return value is produced, as
in the source.
-/

/-- getAllAttributes: touch `node`, return Array.from(node.attributes). -/
def getAllAttributes (t : DomTree) (node : DomNode) :
    List DomNode × List (String × String) :=
  ([node], t.attributes node)

/-- getAttribute: touch `node`, return node.getAttribute(attributeName)
(null when the attribute is absent). -/
def getAttribute (t : DomTree) (node : DomNode) (attributeName : String) :
    List DomNode × Option String :=
  ([node], (t.attributes node).lookup attributeName)

/-- getChildNodes: touch `node`, return the child nodes filtered by
`!bucket || getBucketsForNode(childNode).includes(bucket)`. -/
def getChildNodes (t : DomTree) (node : DomNode) (bucket : Option String) :
    List DomNode × List DomNode :=
  ([node],
   (t.childNodes node).filter (fun childNode => bucketMatch (t.bucketsOf childNode) bucket))

/-- getData: touch `node`; for an attribute node return node.value,
otherwise (text node) return node.data. -/
def getData (t : DomTree) (node : DomNode) : List DomNode × String :=
  ([node],
   if t.nodeType node == nodeTypeATTRIBUTE then t.nodeValue node else t.nodeData node)

/-- getFirstChild: touch `node`, return the first child matching the
bucket test, or null. -/
def getFirstChild (t : DomTree) (node : DomNode) (bucket : Option String) :
    List DomNode × Option DomNode :=
  ([node],
   (t.childNodes node).find? (fun child => bucketMatch (t.bucketsOf child) bucket))

/-- getLastChild: touch `node`; the body then evaluates
`node.getChildNodes()`.  DOM nodes have no getChildNodes method (the
facade itself has one, but `node` is a raw DOM node, which exposes
childNodes as a property), so that call raises
`TypeError: node.getChildNodes is not a function` after the touch has
already been recorded.  The filtering and last-element selection that
follow in the source are unreachable. -/
def getLastChild (t : DomTree) (node : DomNode) (bucket : Option String) :
    List DomNode × Except JsError (Option DomNode) :=
  ([node], Except.error (JsError.typeError "node.getChildNodes is not a function"))

/-- getNextSibling: touch node.parentNode when it exists (no touch
otherwise); walk the following siblings and return the first for which
`bucket && !getBucketsForNode(sibling).includes(bucket)` does not skip,
i.e. the first sibling passing `bucketMatch`; null when none. -/
def getNextSibling (t : DomTree) (node : DomNode) (bucket : Option String) :
    List DomNode × Option DomNode :=
  (match t.parentNode node with
   | some p => [p]
   | none => [],
   (t.siblingsAfter node).find? (fun sibling => bucketMatch (t.bucketsOf sibling) bucket))

/-- getParentNode: touch node.parentNode when it exists (no touch
otherwise), return node.parentNode. -/
def getParentNode (t : DomTree) (node : DomNode) :
    List DomNode × Option DomNode :=
  (match t.parentNode node with
   | some p => [p]
   | none => [],
   t.parentNode node)

/-- getPreviousSibling: touch node.parentNode when it exists (no touch
otherwise); walk the preceding siblings, nearest first, skipping every
sibling for which `!getBucketsForNode(previousSibling).includes(bucket)`
holds.  Unlike getNextSibling there is no `bucket &&` guard, so with an
absent bucket the includes test is false for every sibling and the loop
always falls through to null. -/
def getPreviousSibling (t : DomTree) (node : DomNode) (bucket : Option String) :
    List DomNode × Option DomNode :=
  (match t.parentNode node with
   | some p => [p]
   | none => [],
   (t.siblingsBefore node).find? (fun sibling => jsIncludes (t.bucketsOf sibling) bucket))

/-- One read of the facade performed by an evaluation callback. -/
inductive FacadeOp
  | allAttributesOp (node : DomNode)
  | attributeOp (node : DomNode) (name : String)
  | childNodesOp (node : DomNode) (bucket : Option String)
  | dataOp (node : DomNode)
  | firstChildOp (node : DomNode) (bucket : Option String)
  | lastChildOp (node : DomNode) (bucket : Option String)
  | nextSiblingOp (node : DomNode) (bucket : Option String)
  | parentNodeOp (node : DomNode)
  | previousSiblingOp (node : DomNode) (bucket : Option String)

/-- The touches one facade call records (first component of the
corresponding method). -/
def touchesOfOp (t : DomTree) : FacadeOp → List DomNode
  | .allAttributesOp n => (getAllAttributes t n).1
  | .attributeOp n a => (getAttribute t n a).1
  | .childNodesOp n b => (getChildNodes t n b).1
  | .dataOp n => (getData t n).1
  | .firstChildOp n b => (getFirstChild t n b).1
  | .lastChildOp n b => (getLastChild t n b).1
  | .nextSiblingOp n b => (getNextSibling t n b).1
  | .parentNodeOp n => (getParentNode t n).1
  | .previousSiblingOp n b => (getPreviousSibling t n b).1

/-- An evaluation callback, abstracted by its observable interaction with
the engine: the facade reads it performs, in order, and whether an
exception escapes it after those reads. -/
structure Evaluate where
  ops : List FacadeOp
  throws : Bool

/-!
JS Set and Map of the invalidator, over Nat handles.

A JS Set keeps insertion order and ignores re-insertion; `addS` appends
when absent.  A JS Map is keyed by identity; the association lists below
read the first matching entry, update it in place, and delete it.
-/

/-- A JS Set of handles: duplicate-free list in insertion order. -/
abbrev NSet := List Nat

/-- Set.prototype.add. -/
def addS (s : NSet) (x : Nat) : NSet :=
  if x ∈ s then s else s ++ [x]

/-- Set.prototype.delete. -/
def delS (s : NSet) (x : Nat) : NSet :=
  s.filter (fun y => y != x)

/-- A JS Map from handles to sets of handles. -/
abbrev NMap := List (Nat × NSet)

/-- Map.prototype.get (undefined becomes none); Map.prototype.has is
`(mapGet m k).isSome`. -/
def mapGet : NMap → Nat → Option NSet
  | [], _ => none
  | e :: rest, k => if e.1 = k then some e.2 else mapGet rest k

/-- Map.prototype.set. -/
def mapSet : NMap → Nat → NSet → NMap
  | [], k, v => [(k, v)]
  | e :: rest, k, v => if e.1 = k then (k, v) :: rest else e :: mapSet rest k v

/-- Map.prototype.delete. -/
def mapDelete (m : NMap) (k : Nat) : NMap :=
  m.filter (fun e => e.1 != k)

/-- The value a set-valued map read observes: the stored set, or the empty
set for an absent key.  (`getOrDefault` in the source materialises the
empty set; every code path below that reads through `getS` also writes the
entry back, so the observable behaviour is identical.) -/
def getS (m : NMap) (k : Nat) : NSet :=
  (mapGet m k).getD []

/-- The kind of a DOM mutation, as MutationObserver classifies it. -/
inductive MutationKind
  | childList
  | attributes
  | characterData
deriving DecidableEq

/-- A MutationRecord, reduced to the fields the engine reads. -/
structure MutationRecord where
  target : DomNode
  kind : MutationKind
deriving DecidableEq

/-- A MutationObserverInit dictionary.  These are the members the WHATWG
standard recognises (besides the oldValue/filter members, which the engine
never sets); unknown members of the options object are ignored. -/
structure ObserveOptions where
  childList : Bool
  attributes : Bool
  characterData : Bool
  subtree : Bool
deriving DecidableEq

/-- The options object observeInstance passes:
`{childList: true, attributes: true, data: true, subtree: true}`.
`data` is not a MutationObserverInit member (the standard key for text
mutations is `characterData`), so characterData observation is left at its
default, false. -/
def sourceObserveOptions : ObserveOptions :=
  { childList := true, attributes := true, characterData := false, subtree := true }

/-- The whole mutable state of one XPathInvalidator instance, together
with the state of its MutationObserver.  `undeliveredRecords` are records
the observer has queued but whose delivery callback has not yet run; they
are what takeRecords() returns.  `currentDomFacade` holds the identity of
the installed facade (facades are created fresh per run and numbered by
`nextFacadeId`), or none when the slot is empty. -/
structure InvalidatorState where
  dependentComponentsByNode : NMap
  dependenciesByComponent : NMap
  queuedMutationRecords : List MutationRecord
  undeliveredRecords : List MutationRecord
  observations : List (DomNode × ObserveOptions)
  currentDomFacade : Option Nat
  nextFacadeId : Nat
deriving DecidableEq

/-- The state of a freshly constructed XPathInvalidator. -/
def emptyState : InvalidatorState :=
  { dependentComponentsByNode := []
    dependenciesByComponent := []
    queuedMutationRecords := []
    undeliveredRecords := []
    observations := []
    currentDomFacade := none
    nextFacadeId := 0 }

/-- observeInstance: no-op when the argument lacks a nodeType property;
when the argument is a whole document, substitute its documentElement as
the anchor; then call MutationObserver.observe with the source options
object (see `sourceObserveOptions`). -/
def observeInstance (t : DomTree) (st : InvalidatorState)
    (hasNodeTypeProp : Bool) (instanceRoot : DomNode) : InvalidatorState :=
  if !hasNodeTypeProp then st
  else
    { st with
        observations :=
          st.observations ++
            [((if t.nodeType instanceRoot == nodeTypeDOCUMENT then
                  t.documentElement instanceRoot
                else instanceRoot),
              sourceObserveOptions)] }

/-- The ancestor-or-self chain of `n`, walked through `parentNode` with
explicit fuel (any fuel at least the tree depth is exact). -/
def ancestorChain (t : DomTree) : Nat → DomNode → List DomNode
  | 0, _ => []
  | fuel + 1, n =>
      n :: (match t.parentNode n with
            | none => []
            | some p => ancestorChain t fuel p)

/-- Whether `n` lies in the subtree rooted at `anchor`. -/
def inSubtree (t : DomTree) (fuel : Nat) (anchor n : DomNode) : Bool :=
  (ancestorChain t fuel n).contains anchor

/-- Whether an observation with the given options reports mutations of
the given kind. -/
def kindEnabled (o : ObserveOptions) : MutationKind → Bool
  | .childList => o.childList
  | .attributes => o.attributes
  | .characterData => o.characterData

/-- Modelled from the WHATWG MutationObserver contract (the observer
itself is a host API, not repository code): a mutation of kind `k` on
node `n` queues a record for an observer exactly when some registered
observation matches it — the kind is enabled by its options and `n` is
the anchor itself or, with `subtree`, any descendant of the anchor. -/
def deliverExternalMutation (t : DomTree) (fuel : Nat) (st : InvalidatorState)
    (n : DomNode) (k : MutationKind) : InvalidatorState :=
  if st.observations.any (fun ob =>
      kindEnabled ob.2 k &&
        (if ob.2.subtree then inSubtree t fuel ob.1 n else n == ob.1)) then
    { st with undeliveredRecords := st.undeliveredRecords ++ [{ target := n, kind := k }] }
  else st

/-- The asynchronous delivery callback of the MutationObserver: each
queued record is pushed onto `_queuedMutationRecords`, emptying the
observer's own queue. -/
def deliverPendingRecords (st : InvalidatorState) : InvalidatorState :=
  { st with
      queuedMutationRecords := st.queuedMutationRecords ++ st.undeliveredRecords
      undeliveredRecords := [] }

/-- The deduplicating touched-node Set the facade closure accumulates
during one run: every facade call adds the touches of that call, in
order, to the Set. -/
def touchedNodesOf (t : DomTree) (cb : Evaluate) : List DomNode :=
  cb.ops.foldl (fun acc op => (touchesOfOp t op).foldl addS acc) []

/-- The merge loop at the end of runInInvalidationContext: for each
touched node, `getOrDefault(_dependentComponentsByNode, touchedNode)`,
add the component to that set, and add the touched node to the
component's dependency set. -/
def mergeTouched (component : Component) : NMap → NSet → List DomNode → NMap × NSet
  | dcn, deps, [] => (dcn, deps)
  | dcn, deps, touchedNode :: rest =>
      mergeTouched component
        (mapSet dcn touchedNode (addS (getS dcn touchedNode) component))
        (addS deps touchedNode) rest

/-- runInInvalidationContext: install a fresh facade into
`_currentDomFacade`, run the callback, then merge the touched set into
both indices and clear the slot.  The source calls `callback()` bare —
no try/finally — so when the callback throws, the error propagates
immediately: nothing is merged and the slot keeps the freshly installed
facade. -/
def runInInvalidationContext (t : DomTree) (st : InvalidatorState)
    (component : Component) (cb : Evaluate) : Option JsError × InvalidatorState :=
  if cb.throws then
    (some JsError.thrownByCallback,
     { st with
         currentDomFacade := some st.nextFacadeId
         nextFacadeId := st.nextFacadeId + 1 })
  else
    (none,
     { st with
         currentDomFacade := none
         nextFacadeId := st.nextFacadeId + 1
         dependentComponentsByNode :=
           (mergeTouched component st.dependentComponentsByNode
             (getS st.dependenciesByComponent component) (touchedNodesOf t cb)).1
         dependenciesByComponent :=
           mapSet st.dependenciesByComponent component
             (mergeTouched component st.dependentComponentsByNode
               (getS st.dependenciesByComponent component) (touchedNodesOf t cb)).2 })

/-- The currentDomFacade getter: with an empty slot it emits
`console.warn` (the Bool records whether the diagnostic was emitted) and
returns null; otherwise it returns the installed facade. -/
def currentDomFacadeAccessor (st : InvalidatorState) : Bool × Option Nat :=
  match st.currentDomFacade with
  | none => (true, none)
  | some f => (false, some f)

/-- A read the evaluator performs through the value the accessor
returned: on null, the method call itself raises a TypeError; on a real
facade it is the corresponding facade read (here getData, which the
end-to-end scenario uses), returning its touches and value. -/
def readDataThrough (t : DomTree) (facade : Option Nat) (node : DomNode) :
    Except JsError (List DomNode × String) :=
  match facade with
  | none => Except.error (JsError.typeError "Cannot read properties of null")
  | some _ => Except.ok (getData t node)

/-- removeComponent, inner loop: for each recorded dependency, fetch
`_dependentComponentsByNode.get(dependency)` and delete the component
from it.  When the fetch yields undefined, `.delete` on undefined raises
a TypeError at that point, leaving earlier deletions in place. -/
def removeFromDependents (component : Component) :
    NMap → List DomNode → Option JsError × NMap
  | dcn, [] => (none, dcn)
  | dcn, dependency :: rest =>
      match mapGet dcn dependency with
      | none => (some (JsError.typeError "Cannot read properties of undefined"), dcn)
      | some siblingComponents =>
          removeFromDependents component
            (mapSet dcn dependency (delS siblingComponents component)) rest

/-- removeComponent: iterate `_dependenciesByComponent.get(component)` —
a for..of over undefined raises a TypeError when the component has no
entry — deleting the component from each dependency's dependent set, then
delete the component's own entry. -/
def removeComponent (st : InvalidatorState) (component : Component) :
    Option JsError × InvalidatorState :=
  match mapGet st.dependenciesByComponent component with
  | none => (some (JsError.typeError "undefined is not iterable"), st)
  | some deps =>
      match removeFromDependents component st.dependentComponentsByNode deps with
      | (some e, dcn1) => (some e, { st with dependentComponentsByNode := dcn1 })
      | (none, dcn1) =>
          (none,
           { st with
               dependentComponentsByNode := dcn1
               dependenciesByComponent := mapDelete st.dependenciesByComponent component })

/-- The resolution loop of getInvalidatedComponents: for each record,
skip targets absent from `_dependentComponentsByNode`, otherwise push the
spread of the stored set onto the components array (a plain array — a
component reached through several records is pushed several times). -/
def collectDependents (dcn : NMap) (records : List MutationRecord) : List Component :=
  records.foldl
    (fun acc record =>
      match mapGet dcn record.target with
      | none => acc
      | some cs => acc ++ cs) []

/-- The eviction loop of getInvalidatedComponents: removeComponent on
each collected component in order; an error thrown by one call aborts the
loop there, keeping the partial state. -/
def evictAll : InvalidatorState → List Component → Option JsError × InvalidatorState
  | st, [] => (none, st)
  | st, c :: rest =>
      match removeComponent st c with
      | (some e, st1) => (some e, st1)
      | (none, st1) => evictAll st1 rest

/-- getInvalidatedComponents: concatenate `_queuedMutationRecords` with
`takeRecords()` (which empties the observer queue), reset the queue,
resolve every record to its dependent components, evict each collected
component, and return the collected array.  On an error during eviction
the call throws: no array is returned and the state keeps the evictions
already performed. -/
def getInvalidatedComponents (st : InvalidatorState) :
    Option JsError × InvalidatorState × List Component :=
  match evictAll
      { st with queuedMutationRecords := [], undeliveredRecords := [] }
      (collectDependents st.dependentComponentsByNode
        (st.queuedMutationRecords ++ st.undeliveredRecords)) with
  | (some e, st2) => (some e, st2, [])
  | (none, st2) =>
      (none, st2,
       collectDependents st.dependentComponentsByNode
         (st.queuedMutationRecords ++ st.undeliveredRecords))

/-- The operations through which the host drives one invalidator
instance; `runOp`, `drainOp` and `evictOp` are the graph mutators, the
other two only touch the observer. -/
inductive EngineOp
  | runOp (component : Component) (cb : Evaluate)
  | drainOp
  | evictOp (component : Component)
  | observeOp (hasNodeTypeProp : Bool) (root : DomNode)
  | deliverOp (target : DomNode) (kind : MutationKind)

/-- Apply one engine operation, returning the error it throws (if any)
and the state it leaves behind. -/
def applyOp (t : DomTree) (fuel : Nat) (st : InvalidatorState) :
    EngineOp → Option JsError × InvalidatorState
  | .runOp c cb => runInInvalidationContext t st c cb
  | .drainOp => ((getInvalidatedComponents st).1, (getInvalidatedComponents st).2.1)
  | .evictOp c => removeComponent st c
  | .observeOp h root => (none, observeInstance t st h root)
  | .deliverOp n k => (none, deliverExternalMutation t fuel st n k)

/-- The symmetry invariant of the Dependency Graph: a node is among a
component's dependencies exactly when the component is among the node's
dependents. -/
def symmetricState (st : InvalidatorState) : Prop :=
  ∀ c n, n ∈ getS st.dependenciesByComponent c ↔ c ∈ getS st.dependentComponentsByNode n

/-- A small concrete tree shared by the scenario theorems: element 0 is
the root with children 1 (element) and 2 (a text node with data
"hello"). -/
def treeA : DomTree :=
  { parentNode := fun n => if n = 1 ∨ n = 2 then some 0 else none
    childNodes := fun n => if n = 0 then [1, 2] else []
    attributes := fun _ => [("id", "x")]
    nodeValue := fun _ => ""
    nodeData := fun n => if n = 2 then "hello" else ""
    nodeType := fun n => if n = 2 then 3 else 1
    documentElement := fun _ => 0
    bucketsOf := fun _ => ["type-1"] }

/-!
Membership lemmas for the Set and Map embeddings.
-/

lemma mem_addS {s : NSet} {x y : Nat} : y ∈ addS s x ↔ y ∈ s ∨ y = x := by
  unfold addS
  by_cases h : x ∈ s
  · simp only [if_pos h]
    constructor
    · exact Or.inl
    · rintro (hy | rfl)
      · exact hy
      · exact h
  · simp [if_neg h]

lemma mem_delS {s : NSet} {x y : Nat} : y ∈ delS s x ↔ y ∈ s ∧ y ≠ x := by
  simp [delS, List.mem_filter, bne_iff_ne]

lemma mapGet_mapSet_self (m : NMap) (k : Nat) (v : NSet) :
    mapGet (mapSet m k v) k = some v := by
  induction m with
  | nil => simp [mapSet, mapGet]
  | cons e rest ih =>
      by_cases h : e.1 = k
      · simp [mapSet, mapGet, h]
      · simp [mapSet, mapGet, h, ih]

lemma mapGet_mapSet_ne (m : NMap) (k k' : Nat) (v : NSet) (h : k' ≠ k) :
    mapGet (mapSet m k v) k' = mapGet m k' := by
  induction m with
  | nil => simp [mapSet, mapGet, Ne.symm h]
  | cons e rest ih =>
      by_cases he : e.1 = k
      · simp [mapSet, mapGet, he, Ne.symm h]
      · by_cases he' : e.1 = k'
        · simp [mapSet, mapGet, he, he', h]
        · simp [mapSet, mapGet, he, he', ih]

lemma mapGet_mapDelete_self (m : NMap) (k : Nat) :
    mapGet (mapDelete m k) k = none := by
  induction m with
  | nil => simp [mapDelete, mapGet]
  | cons e rest ih =>
      by_cases h : e.1 = k
      · simpa [mapDelete, List.filter_cons, h] using ih
      · simpa [mapDelete, List.filter_cons, bne_iff_ne, mapGet, h] using ih

lemma mapGet_mapDelete_ne (m : NMap) (k k' : Nat) (h : k' ≠ k) :
    mapGet (mapDelete m k) k' = mapGet m k' := by
  induction m with
  | nil => simp [mapDelete, mapGet]
  | cons e rest ih =>
      by_cases he : e.1 = k
      · simpa [mapDelete, List.filter_cons, he, mapGet, Ne.symm h] using ih
      · by_cases he' : e.1 = k'
        · simp [mapDelete, List.filter_cons, bne_iff_ne, he, mapGet, he', h]
        · simpa [mapDelete, List.filter_cons, bne_iff_ne, he, mapGet, he'] using ih

lemma getS_mapSet_self (m : NMap) (k : Nat) (v : NSet) :
    getS (mapSet m k v) k = v := by
  simp [getS, mapGet_mapSet_self]

lemma getS_mapSet_ne (m : NMap) (k k' : Nat) (v : NSet) (h : k' ≠ k) :
    getS (mapSet m k v) k' = getS m k' := by
  simp [getS, mapGet_mapSet_ne m k k' v h]

lemma getS_mapDelete_self (m : NMap) (k : Nat) : getS (mapDelete m k) k = [] := by
  simp [getS, mapGet_mapDelete_self]

lemma getS_mapDelete_ne (m : NMap) (k k' : Nat) (h : k' ≠ k) :
    getS (mapDelete m k) k' = getS m k' := by
  simp [getS, mapGet_mapDelete_ne m k k' h]

/-!
Effect of the merge loop of runInInvalidationContext on both indices.
-/

lemma mergeTouched_mem (component : Component) (touched : List DomNode) :
    ∀ (dcn : NMap) (deps : NSet),
      (∀ n c', c' ∈ getS (mergeTouched component dcn deps touched).1 n ↔
          (c' ∈ getS dcn n ∨ (c' = component ∧ n ∈ touched)))
      ∧ (∀ n, n ∈ (mergeTouched component dcn deps touched).2 ↔ (n ∈ deps ∨ n ∈ touched)) := by
  induction touched with
  | nil =>
      intro dcn deps
      constructor
      · intro n c'; simp [mergeTouched]
      · intro n; simp [mergeTouched]
  | cons tn rest ih =>
      intro dcn deps
      have hstep :
          mergeTouched component dcn deps (tn :: rest) =
            mergeTouched component
              (mapSet dcn tn (addS (getS dcn tn) component)) (addS deps tn) rest := rfl
      constructor
      · intro n c'
        rw [hstep, (ih _ _).1 n c']
        by_cases hn : n = tn
        · subst hn
          rw [getS_mapSet_self]
          simp only [mem_addS, List.mem_cons]
          tauto
        · rw [getS_mapSet_ne dcn tn n _ hn]
          simp only [List.mem_cons]
          constructor
          · rintro (hm | ⟨rfl, hr⟩)
            · exact Or.inl hm
            · exact Or.inr ⟨rfl, Or.inr hr⟩
          · rintro (hm | ⟨rfl, (hteq | hr)⟩)
            · exact Or.inl hm
            · exact absurd hteq hn
            · exact Or.inr ⟨rfl, hr⟩
      · intro n
        rw [hstep, (ih _ _).2 n]
        simp only [mem_addS, List.mem_cons]
        tauto

/-- Completing runInInvalidationContext preserves the symmetry invariant
of the two indices. -/
lemma symmetric_after_run (t : DomTree) (st : InvalidatorState)
    (c : Component) (cb : Evaluate) (hsym : symmetricState st)
    (hok : (runInInvalidationContext t st c cb).1 = none) :
    symmetricState (runInInvalidationContext t st c cb).2 := by
  by_cases hth : cb.throws
  · simp [runInInvalidationContext, hth] at hok
  · intro c' n
    simp only [runInInvalidationContext, hth, if_neg, Bool.false_eq_true, if_false]
    have hmerge :=
      mergeTouched_mem c (touchedNodesOf t cb) st.dependentComponentsByNode
        (getS st.dependenciesByComponent c)
    by_cases hc : c' = c
    · subst hc
      rw [getS_mapSet_self]
      rw [hmerge.2 n, hmerge.1 n c']
      rw [hsym c' n]
      tauto
    · rw [getS_mapSet_ne _ _ _ _ hc]
      rw [hmerge.1 n c']
      rw [hsym c' n]
      constructor
      · exact Or.inl
      · rintro (hm | ⟨hcc, _⟩)
        · exact hm
        · exact absurd hcc hc

/-!
Effect of the removal loop of removeComponent on the dependents index,
when it completes without a fault.
-/

lemma removeFromDependents_ok_mem (component : Component) (ds : List DomNode) :
    ∀ dcn, (removeFromDependents component dcn ds).1 = none →
      ∀ n c', c' ∈ getS (removeFromDependents component dcn ds).2 n ↔
        (c' ∈ getS dcn n ∧ ¬(c' = component ∧ n ∈ ds)) := by
  induction ds with
  | nil =>
      intro dcn _ n c'
      simp [removeFromDependents]
  | cons d rest ih =>
      intro dcn hok n c'
      cases hd : mapGet dcn d with
      | none =>
          rw [show removeFromDependents component dcn (d :: rest) =
                (some (JsError.typeError "Cannot read properties of undefined"), dcn) by
              simp [removeFromDependents, hd]] at hok
          exact absurd hok (by simp)
      | some siblingComponents =>
          have hstep : removeFromDependents component dcn (d :: rest) =
              removeFromDependents component
                (mapSet dcn d (delS siblingComponents component)) rest := by
            simp [removeFromDependents, hd]
          rw [hstep] at hok ⊢
          rw [ih _ hok n c']
          have hgd : getS dcn d = siblingComponents := by simp [getS, hd]
          by_cases hn : n = d
          · subst hn
            rw [getS_mapSet_self, mem_delS, hgd]
            simp only [List.mem_cons]
            tauto
          · rw [getS_mapSet_ne _ _ _ _ hn]
            simp only [List.mem_cons]
            constructor
            · rintro ⟨hm, hnr⟩
              refine ⟨hm, ?_⟩
              rintro ⟨rfl, (hnd | hr)⟩
              · exact hn hnd
              · exact hnr ⟨rfl, hr⟩
            · rintro ⟨hm, hnr⟩
              refine ⟨hm, ?_⟩
              rintro ⟨rfl, hr⟩
              exact hnr ⟨rfl, Or.inr hr⟩

/-- Completing removeComponent (evict) preserves the symmetry invariant. -/
lemma symmetric_after_removeComponent (st : InvalidatorState) (c : Component)
    (hsym : symmetricState st) (hok : (removeComponent st c).1 = none) :
    symmetricState (removeComponent st c).2 := by
  cases hdeps : mapGet st.dependenciesByComponent c with
  | none => simp only [removeComponent, hdeps] at hok; exact absurd hok (by simp)
  | some deps =>
      cases hrem : removeFromDependents c st.dependentComponentsByNode deps with
      | mk e1 dcn1 =>
          cases e1 with
          | some e =>
              simp only [removeComponent, hdeps, hrem] at hok
              exact absurd hok (by simp)
          | none =>
              have hres : (removeComponent st c).2 =
                  { st with
                      dependentComponentsByNode := dcn1
                      dependenciesByComponent := mapDelete st.dependenciesByComponent c } := by
                simp only [removeComponent, hdeps, hrem]
              rw [hres]
              intro c' n
              have hmem := removeFromDependents_ok_mem c deps st.dependentComponentsByNode
                (by rw [hrem]) n c'
              rw [hrem] at hmem
              have hgd : getS st.dependenciesByComponent c = deps := by simp [getS, hdeps]
              by_cases hc : c' = c
              · subst hc
                rw [getS_mapDelete_self]
                simp only [List.not_mem_nil, false_iff]
                rw [hmem]
                rintro ⟨hm, hnr⟩
                exact hnr ⟨rfl, by rw [← hgd]; exact (hsym c' n).mpr hm⟩
              · rw [getS_mapDelete_ne _ _ _ hc, hsym c' n, hmem]
                constructor
                · intro hm; exact ⟨hm, by rintro ⟨hcc, _⟩; exact hc hcc⟩
                · rintro ⟨hm, _⟩; exact hm

/-- Completing the eviction loop preserves the symmetry invariant. -/
lemma symmetric_after_evictAll (cs : List Component) :
    ∀ st, symmetricState st → (evictAll st cs).1 = none →
      symmetricState (evictAll st cs).2 := by
  induction cs with
  | nil => intro st hsym _; exact hsym
  | cons c rest ih =>
      intro st hsym hok
      cases hrm : removeComponent st c with
      | mk e1 st1 =>
          cases e1 with
          | some e =>
              rw [show evictAll st (c :: rest) = (some e, st1) by
                simp [evictAll, hrm]] at hok
              exact absurd hok (by simp)
          | none =>
              have hstep : evictAll st (c :: rest) = evictAll st1 rest := by
                simp [evictAll, hrm]
              rw [hstep] at hok ⊢
              have hsym1 : symmetricState st1 := by
                have := symmetric_after_removeComponent st c hsym (by rw [hrm])
                rwa [hrm] at this
              exact ih st1 hsym1 hok

/-- Completing getInvalidatedComponents (drain) preserves the symmetry
invariant. -/
lemma symmetric_after_drain (st : InvalidatorState) (hsym : symmetricState st)
    (hok : (getInvalidatedComponents st).1 = none) :
    symmetricState (getInvalidatedComponents st).2.1 := by
  have hsym0 : symmetricState
      { st with queuedMutationRecords := [], undeliveredRecords := [] } := hsym
  cases hev : evictAll
      { st with queuedMutationRecords := [], undeliveredRecords := [] }
      (collectDependents st.dependentComponentsByNode
        (st.queuedMutationRecords ++ st.undeliveredRecords)) with
  | mk e1 st2 =>
      cases e1 with
      | some e =>
          rw [show getInvalidatedComponents st = (some e, st2, []) by
            rw [getInvalidatedComponents, hev]] at hok
          exact absurd hok (by simp)
      | none =>
          have hres : (getInvalidatedComponents st).2.1 = st2 := by
            rw [getInvalidatedComponents, hev]
          rw [hres]
          have := symmetric_after_evictAll _ _ hsym0 (by rw [hev])
          rwa [hev] at this

/-!
Scenario states for the concrete claim theorems.
-/

/-- State for the drain fan-in scenario: component 0 depends on nodes 1
and 2 (both edges symmetric), and one pending mutation record per node. -/
def stateC3 : InvalidatorState :=
  { emptyState with
      dependenciesByComponent := [(0, [1, 2])]
      dependentComponentsByNode := [(1, [0]), (2, [0])]
      queuedMutationRecords :=
        [{ target := 1, kind := MutationKind.attributes },
         { target := 2, kind := MutationKind.attributes }] }

/-- End-to-end scenario, step 1: observe the tree root. -/
def stateC5a : InvalidatorState := observeInstance treeA emptyState true 0

/-- End-to-end scenario, step 2: run component 0 reading the data of
text node 2 through the facade. -/
def stateC5b : InvalidatorState :=
  (runInInvalidationContext treeA stateC5a 0 { ops := [FacadeOp.dataOp 2], throws := false }).2

/-- End-to-end scenario, step 3: an external mutation changes the data of
text node 2. -/
def stateC5c : InvalidatorState :=
  deliverExternalMutation treeA 10 stateC5b 2 MutationKind.characterData

/-- Precise-invalidation scenario: component A depends only on node p,
component B only on node q, one pending record targets q. -/
def stateC8 (A B p q : Nat) : InvalidatorState :=
  { emptyState with
      dependenciesByComponent := [(A, [p]), (B, [q])]
      dependentComponentsByNode := [(p, [A]), (q, [B])]
      queuedMutationRecords := [{ target := q, kind := MutationKind.childList }] }

/-- State with a context already active (one facade installed). -/
def stateC10 : InvalidatorState :=
  { emptyState with currentDomFacade := some 0, nextFacadeId := 1 }

/-- C1: the claim says that when `evaluate` throws inside runInContext,
the touched nodes are still merged into the graph and the Active Context
slot is cleared before the error propagates.  The source calls
`callback()` with no try/finally, so on a throw nothing is merged and the
slot still holds the freshly installed facade: at a concrete input, the
call propagates the error, leaves the slot populated, and records no
dependency for the component or for the touched node. -/
theorem c1_run_error_leaves_slot_and_merges_nothing :
    (runInInvalidationContext treeA emptyState 7
        { ops := [FacadeOp.dataOp 2], throws := true }).1 = some JsError.thrownByCallback
    ∧ (runInInvalidationContext treeA emptyState 7
        { ops := [FacadeOp.dataOp 2], throws := true }).2.currentDomFacade = some 0
    ∧ mapGet (runInInvalidationContext treeA emptyState 7
        { ops := [FacadeOp.dataOp 2], throws := true }).2.dependenciesByComponent 7 = none
    ∧ mapGet (runInInvalidationContext treeA emptyState 7
        { ops := [FacadeOp.dataOp 2], throws := true }).2.dependentComponentsByNode 2 = none :=
  ⟨rfl, rfl, rfl, rfl⟩

/-- C2: every completed graph-mutating operation (tracked run, drain,
evict), as well as the observer operations, preserves the symmetry
invariant: a node is among a component's dependencies exactly when the
component is among the node's dependents. -/
theorem c2_symmetry_preserved (t : DomTree) (fuel : Nat) (st : InvalidatorState)
    (op : EngineOp) (hsym : symmetricState st)
    (hok : (applyOp t fuel st op).1 = none) :
    symmetricState (applyOp t fuel st op).2 := by
  cases op with
  | runOp c cb => exact symmetric_after_run t st c cb hsym hok
  | drainOp => exact symmetric_after_drain st hsym hok
  | evictOp c => exact symmetric_after_removeComponent st c hsym hok
  | observeOp h root =>
      show symmetricState (observeInstance t st h root)
      unfold observeInstance
      split
      · exact hsym
      · exact hsym
  | deliverOp n k =>
      show symmetricState (deliverExternalMutation t fuel st n k)
      unfold deliverExternalMutation
      split
      · exact hsym
      · exact hsym

/-- Witness for C2 at a concrete input: the empty state is symmetric, a
tracked run on it completes, and the resulting state is symmetric. -/
theorem c2_symmetry_preserved_witness :
    symmetricState emptyState
    ∧ (applyOp treeA 10 emptyState
        (EngineOp.runOp 0 { ops := [FacadeOp.dataOp 2], throws := false })).1 = none
    ∧ symmetricState (applyOp treeA 10 emptyState
        (EngineOp.runOp 0 { ops := [FacadeOp.dataOp 2], throws := false })).2 := by
  have h1 : symmetricState emptyState := by
    intro c n; simp [symmetricState, getS, mapGet, emptyState]
  exact ⟨h1, rfl, c2_symmetry_preserved treeA 10 emptyState _ h1 rfl⟩

/-- C3: the claim says drainInvalidated returns the deduplicated union of
the dependents of all mutated targets, evicts each returned component,
and never faults.  The source pushes the spread of each dependent set
onto a plain array, so a component depending on two mutated nodes is
collected twice, and the second removeComponent call on it then iterates
an undefined dependency set and throws a TypeError: the drain faults
instead of returning the component once. -/
theorem c3_drain_fan_in_collects_twice_and_faults :
    collectDependents stateC3.dependentComponentsByNode
      (stateC3.queuedMutationRecords ++ stateC3.undeliveredRecords) = [0, 0]
    ∧ (getInvalidatedComponents stateC3).1 =
        some (JsError.typeError "undefined is not iterable") :=
  ⟨rfl, rfl⟩

/-- C4: nextSibling, previousSibling and parent record their touch on the
node's parent, never on the node itself, and record no touch at all when
the node has no parent. -/
theorem c4_parent_redirected_touches (t : DomTree) (node : DomNode) (bucket : Option String) :
    (∀ p, t.parentNode node = some p →
      (getNextSibling t node bucket).1 = [p]
      ∧ (getPreviousSibling t node bucket).1 = [p]
      ∧ (getParentNode t node).1 = [p])
    ∧ (t.parentNode node = none →
      (getNextSibling t node bucket).1 = []
      ∧ (getPreviousSibling t node bucket).1 = []
      ∧ (getParentNode t node).1 = [])
    ∧ (t.parentNode node ≠ some node →
      node ∉ (getNextSibling t node bucket).1
      ∧ node ∉ (getPreviousSibling t node bucket).1
      ∧ node ∉ (getParentNode t node).1) := by
  refine ⟨?_, ?_, ?_⟩
  · intro p hp
    simp [getNextSibling, getPreviousSibling, getParentNode, hp]
  · intro hp
    simp [getNextSibling, getPreviousSibling, getParentNode, hp]
  · intro hne
    cases hp : t.parentNode node with
    | none => simp [getNextSibling, getPreviousSibling, getParentNode, hp]
    | some p =>
        have hpn : ¬ node = p := by
          intro h; exact hne (by rw [hp, h])
        simp [getNextSibling, getPreviousSibling, getParentNode, hp, hpn]

/-- Witness for C4 at a concrete input: node 2 of the concrete tree has
parent 0, the three reads touch exactly node 0, and node 2 itself is not
touched. -/
theorem c4_parent_redirected_touches_witness :
    ((getNextSibling treeA 2 none).1 = [0]
      ∧ (getPreviousSibling treeA 2 none).1 = [0]
      ∧ (getParentNode treeA 2).1 = [0])
    ∧ 2 ∉ (getNextSibling treeA 2 none).1 :=
  ⟨(c4_parent_redirected_touches treeA 2 none).1 0 (by decide),
   ((c4_parent_redirected_touches treeA 2 none).2.2 (by decide)).1⟩

/-- C5: the claim says the end-to-end scenario — observe the root, run a
component reading a text node's data, mutate that data externally, drain
— yields exactly that component, observation covering child-list,
attribute and text mutations.  The source passes `data: true` instead of
`characterData: true` to MutationObserver.observe, so text mutations are
never queued: the dependency is recorded, but the characterData mutation
is dropped and the drain returns the empty set.  The same pipeline with
an attribute mutation (a kind the options do enable) does return the
component, isolating the failure to the options object. -/
theorem c5_data_mutation_never_invalidates :
    mapGet stateC5b.dependenciesByComponent 0 = some [2]
    ∧ stateC5c = stateC5b
    ∧ (getInvalidatedComponents stateC5c).1 = none
    ∧ (getInvalidatedComponents stateC5c).2.2 = []
    ∧ (deliverExternalMutation treeA 10 stateC5b 2 MutationKind.attributes).undeliveredRecords
        = [{ target := 2, kind := MutationKind.attributes }]
    ∧ (getInvalidatedComponents
        (deliverExternalMutation treeA 10 stateC5b 2 MutationKind.attributes)).2.2 = [0] :=
  ⟨rfl, rfl, rfl, rfl, rfl, rfl⟩

/-- C6: the claim (and the spec, explicitly) requires evict on a
component with no recorded dependencies to be a no-op; the source
iterates `_dependenciesByComponent.get(component)`, which is undefined
for such a component, so the call throws a TypeError (the state is left
unchanged, but the fault propagates). -/
theorem c6_evict_unknown_component_faults :
    (removeComponent emptyState 0).1 = some (JsError.typeError "undefined is not iterable")
    ∧ (removeComponent emptyState 0).2 = emptyState :=
  ⟨rfl, rfl⟩

/-- C7: the claim says every facade read delegates to the real tree and
returns the underlying value; in particular lastChild returns the last
matching child and previousSibling without a bucket returns the previous
sibling.  In the source, getLastChild calls `node.getChildNodes()` — not
a DOM method — and throws a TypeError although node 0 has last child 2,
and getPreviousSibling without a bucket tests
`getBucketsForNode(sibling).includes(undefined)`, which is always false,
so it returns null although node 2 has previous sibling 1. -/
theorem c7_reads_do_not_delegate :
    (getLastChild treeA 0 none).2 =
        Except.error (JsError.typeError "node.getChildNodes is not a function")
    ∧ (treeA.childNodes 0).getLast? = some 2
    ∧ (getPreviousSibling treeA 2 none).2 = none
    ∧ treeA.previousSiblingRaw 2 = some 1 :=
  ⟨rfl, rfl, rfl, rfl⟩

/-- C8: precise invalidation. With component A depending only on node p
and component B only on a distinct node q, a mutation of q followed by a
drain completes, returns exactly B, evicts B, and leaves A tracked with
its dependency set on p and the reverse edge intact. -/
theorem c8_precise_invalidation (A B p q : Nat) (hAB : A ≠ B) (hpq : p ≠ q) :
    (getInvalidatedComponents (stateC8 A B p q)).1 = none
    ∧ (getInvalidatedComponents (stateC8 A B p q)).2.2 = [B]
    ∧ mapGet (getInvalidatedComponents (stateC8 A B p q)).2.1.dependenciesByComponent A
        = some [p]
    ∧ getS (getInvalidatedComponents (stateC8 A B p q)).2.1.dependentComponentsByNode p
        = [A]
    ∧ mapGet (getInvalidatedComponents (stateC8 A B p q)).2.1.dependenciesByComponent B
        = none := by
  have hBA : B ≠ A := Ne.symm hAB
  have hqp : q ≠ p := Ne.symm hpq
  simp [getInvalidatedComponents, stateC8, emptyState, collectDependents, evictAll,
        removeComponent, removeFromDependents, mapGet, mapSet, mapDelete, delS, getS,
        List.filter_cons, bne_iff_ne, hAB, hpq, hBA, hqp]

/-- Witness for C8 at a concrete input. -/
theorem c8_precise_invalidation_witness :
    (getInvalidatedComponents (stateC8 0 1 2 3)).1 = none
    ∧ (getInvalidatedComponents (stateC8 0 1 2 3)).2.2 = [1]
    ∧ mapGet (getInvalidatedComponents (stateC8 0 1 2 3)).2.1.dependenciesByComponent 0
        = some [2] :=
  ⟨(c8_precise_invalidation 0 1 2 3 (by decide) (by decide)).1,
   (c8_precise_invalidation 0 1 2 3 (by decide) (by decide)).2.1,
   (c8_precise_invalidation 0 1 2 3 (by decide) (by decide)).2.2.1⟩

/-- C9 counterexample: with no active context the getter emits the
diagnostic and returns null, and a read performed through that returned
value faults with a TypeError instead of succeeding against the raw tree
(whose underlying value for the read is "hello"). -/
theorem c9_counterexample_null_read_faults :
    (currentDomFacadeAccessor emptyState).1 = true
    ∧ (currentDomFacadeAccessor emptyState).2 = none
    ∧ readDataThrough treeA (currentDomFacadeAccessor emptyState).2 2 =
        Except.error (JsError.typeError "Cannot read properties of null")
    ∧ treeA.nodeData 2 = "hello" :=
  ⟨rfl, rfl, rfl, rfl⟩

/-- C9 amended: whenever the getter is called with no active context, it
emits a diagnostic and returns null; no touch is recorded (no tracking
occurs), but the returned value supports no reads — a facade read invoked
on it faults — so untracked evaluation must go to the raw tree directly
rather than through the returned value. -/
theorem c9_null_sentinel_amended (st : InvalidatorState) (t : DomTree) (node : DomNode)
    (h : st.currentDomFacade = none) :
    currentDomFacadeAccessor st = (true, none)
    ∧ readDataThrough t (currentDomFacadeAccessor st).2 node =
        Except.error (JsError.typeError "Cannot read properties of null") := by
  rw [show currentDomFacadeAccessor st = (true, none) by
    unfold currentDomFacadeAccessor; rw [h]]
  exact ⟨rfl, rfl⟩

/-- Witness for the amended C9 at a concrete input. -/
theorem c9_null_sentinel_amended_witness :
    currentDomFacadeAccessor emptyState = (true, none)
    ∧ readDataThrough treeA (currentDomFacadeAccessor emptyState).2 2 =
        Except.error (JsError.typeError "Cannot read properties of null") :=
  c9_null_sentinel_amended emptyState treeA 2 rfl

/-- C10 counterexample: invoked while a context is already active (the
slot holds facade 0), runInInvalidationContext raises no error: it runs
to completion, merges the inner touch set, and leaves the slot cleared —
there is no reentrancy guard that fails or asserts. -/
theorem c10_counterexample_reentrant_call_not_guarded :
    stateC10.currentDomFacade = some 0
    ∧ (runInInvalidationContext treeA stateC10 5
        { ops := [FacadeOp.dataOp 2], throws := false }).1 = none
    ∧ (runInInvalidationContext treeA stateC10 5
        { ops := [FacadeOp.dataOp 2], throws := false }).2.currentDomFacade = none
    ∧ mapGet (runInInvalidationContext treeA stateC10 5
        { ops := [FacadeOp.dataOp 2], throws := false }).2.dependenciesByComponent 5
        = some [2] :=
  ⟨rfl, rfl, rfl, rfl⟩

/-- C10 amended: runInInvalidationContext has no reentrancy guard.
Invoked while another context is active, with a callback that returns
normally, it completes without any fault, silently overwriting the
Active Context slot with the fresh facade and leaving the slot empty
afterward — so the outer context's facade is no longer installed when
the inner call returns. -/
theorem c10_reentrancy_amended (t : DomTree) (st : InvalidatorState)
    (c : Component) (cb : Evaluate)
    (hactive : st.currentDomFacade ≠ none) (hret : cb.throws = false) :
    (runInInvalidationContext t st c cb).1 = none
    ∧ (runInInvalidationContext t st c cb).2.currentDomFacade = none := by
  constructor
  · simp [runInInvalidationContext, hret]
  · simp [runInInvalidationContext, hret]

/-- Witness for the amended C10 at a concrete input. -/
theorem c10_reentrancy_amended_witness :
    (runInInvalidationContext treeA stateC10 5
        { ops := [FacadeOp.dataOp 2], throws := false }).1 = none
    ∧ (runInInvalidationContext treeA stateC10 5
        { ops := [FacadeOp.dataOp 2], throws := false }).2.currentDomFacade = none :=
  c10_reentrancy_amended treeA stateC10 5 _ (by decide) rfl
